import Mathlib

/-!
Shallow embedding of the SeaBIOS TCG BIOS core (src/tcgbios.c): TPM state
tracking, the ACPI TCPA log locator, the event-log manager, the command
transport, the measurement pipeline and the int-1Ah capability dispatcher.

Machine integers are modelled as Nat with an explicit modulus where the C
u32 arithmetic can wrap.  Physical memory holding the event log is a flat
byte function; every memcpy and memset performed by the code is additionally
recorded as an (address, length) pair so that frame properties (no byte
written) are expressible.  The TPM driver (hw/tpm_drivers.h), the SHA-1
primitive and the register marshaling are external collaborators of the
core and enter as explicit environment parameters.
-/

set_option maxHeartbeats 1000000

namespace Tcgbios

/-- Modulus of 32-bit unsigned arithmetic. -/
def u32Mod : Nat := 4294967296

/-! Status codes returned by the BIOS interface.  Modelled from the spec:
std/tcg.h is referenced by tcgbios.c but is not part of src/; the exact
numeric values are irrelevant to every claim (only which symbolic code is
returned matters), the values below follow the TCG PC client convention. -/

def TCG_PC_OK : Nat := 0

def TCG_PC_LOGOVERFLOW : Nat := 2

def TCG_PC_UNSUPPORTED : Nat := 3

def TCG_PC_TPM_NOT_PRESENT : Nat := 0x22

def TCG_GENERAL_ERROR : Nat := 0x10

def TCG_FIRMWARE_ERROR : Nat := 0x15

def TCG_INVALID_INPUT_PARA : Nat := 0x1c

def TCG_FATAL_COM_ERROR : Nat := 0x1e

def TCG_INTERFACE_SHUTDOWN : Nat := 0x20

def TPM_ALG_SHA : Nat := 4

/-- Signature of the TCPA ACPI table, the bytes TCPA little endian. -/
def TCPA_SIGNATURE : Nat := 0x41504354

/-- Event type used by compact_hash_log_extend_event_int. -/
def EV_COMPACT_HASH : Nat := 12

/-! Sizes of the fixed wire structures.  Modelled from the spec: the struct
declarations live in std/tcg.h (not under src/); sizes follow the packed
layouts with 32-bit pointers used by this firmware. -/

/-- Size in bytes of struct pcpes: u32 pcrindex, u32 eventtype, 20 digest
bytes, u32 eventdatasize, followed by the variable body. -/
def pcpesHeaderSize : Nat := 32

/-- Size in bytes of struct tpm_rsp_extend: 10-byte response header plus a
20-byte digest. -/
def tpmRspExtendSize : Nat := 30

/-- Size in bytes of struct hlei (input block of hash_log_event). -/
def hleiSize : Nat := 28

/-- Size in bytes of struct hleei_short. -/
def hleeiShortSize : Nat := 24

/-- Size in bytes of struct hleei_long. -/
def hleeiLongSize : Nat := 28

/-- Size in bytes of struct hleo (output block of hash_log_event). -/
def hleoSize : Nat := 8

/-- Size in bytes of struct hleeo (output block of hash_log_extend_event). -/
def hleeoSize : Nat := 8

/-- Size in bytes of struct hai (input block of hash_all). -/
def haiSize : Nat := 16

/-- Size in bytes of struct pttti (fixed prefix of pass_through input). -/
def ptttiSize : Nat := 8

/-- Size in bytes of struct pttto (fixed prefix of pass_through output). -/
def ptttoSize : Nat := 4

/-- Byte offset of the entry array inside an RSDT (the 36-byte ACPI
standard table header precedes it). -/
def rsdtEntryOffset : Nat := 36

/-! Byte-memory helpers. -/

/-- Little-endian byte image of a u32 value. -/
def le32 (x : Nat) : List Nat :=
  [x % 256, x / 256 % 256, x / 65536 % 256, x / 16777216 % 256]

/-- View a byte list as a byte source, zero beyond its end. -/
def listSrc (l : List Nat) : Nat → Nat := fun i => l.getD i 0

/-- Copy len bytes of src to address addr of memory m (model of memcpy). -/
def writeRegion (m : Nat → Nat) (addr len : Nat) (src : Nat → Nat) : Nat → Nat :=
  fun i => if addr ≤ i ∧ i < addr + len then src (i - addr) else m i

/-- Zero-fill len bytes at address addr of memory m (model of memset 0). -/
def memsetZero (m : Nat → Nat) (addr len : Nat) : Nat → Nat :=
  writeRegion m addr len (fun _ => 0)

/-- Byte-sum checksum of the first len bytes, accumulated in a u8, as
computed by the checksum helper of string.h used by find_tcpa_by_rsdp. -/
def checksum (byteAt : Nat → Nat) (len : Nat) : Nat :=
  (List.range len).foldl (fun a i => (a + byteAt i) % 256) 0

/-! Data model. -/

/-- The PCR event log entry header, struct pcpes of std/tcg.h. -/
structure Pcpes where
  pcrindex : Nat
  eventtype : Nat
  digest : List Nat
  eventdatasize : Nat

/-- Serialized 32-byte header image of a pcpes, as memcpied into the log. -/
def pcpesBytes (p : Pcpes) : List Nat :=
  le32 p.pcrindex ++ le32 p.eventtype ++ p.digest ++ le32 p.eventdatasize

/-- A candidate ACPI table reached from an RSDT entry, with the fields of
struct tcpa_descriptor_rev2 that the locator reads. -/
structure TcpaTable where
  signature : Nat
  length : Nat
  byteAt : Nat → Nat
  log_area_minimum_length : Nat
  log_area_start_address : Nat

/-- The RSDT root table: its declared length and its entry array. -/
structure RsdtT where
  length : Nat
  entry : Nat → TcpaTable

/-- The RSDP root pointer; rsdt is none when rsdt_physical_address is 0. -/
structure RsdpT where
  rsdt : Option RsdtT

/-- Behavior of the external TPM driver (hw/tpm_drivers.h) for one call of
the core: probe outcome and the outcome of each transport step. -/
structure DriverEnv where
  present : Bool
  activate_ok : Bool
  send_ok : Bool
  datavalid_ok : Bool
  respready_ok : Bool
  read_ok : Bool
  resp_len : Nat
  errcode : Nat

/-- Duration class passed to the driver when waiting for a response. -/
inductive TpmDuration where
  | short
  | medium
  | long

/-- The process-wide tpm_state_t together with the flat physical memory
holding the event log.  writes records every (address, length) pair the
core memcpys or memsets into log memory; sends counts driver senddata
invocations, so that no-write and no-transmit frame claims are statable. -/
structure TpmState where
  tpm_probed : Bool
  tpm_found : Bool
  tpm_working : Bool
  if_shutdown : Bool
  driver_valid : Bool
  tcpa : Option TcpaTable
  log_area_minimum_length : Nat
  log_area_start_address : Nat
  entry_count : Nat
  log_area_next_entry : Option Nat
  log_area_last_entry : Option Nat
  logmem : Nat → Nat
  writes : List (Nat × Nat)
  sends : Nat

/-! TPM state tracking. -/

def is_preboot_if_shutdown (s : TpmState) : Bool :=
  s.if_shutdown

/-- Probe loop over the registered drivers; on success the driver index is
recorded (driver_valid models tpm_driver_to_use being a real index). -/
def is_tpm_present (env : DriverEnv) (s : TpmState) : Bool × TpmState :=
  if env.present then (true, { s with driver_valid := true }) else (false, s)

def probe_tpm (env : DriverEnv) (s : TpmState) : TpmState :=
  if s.tpm_probed then s
  else
    let pr := is_tpm_present env s
    { pr.2 with tpm_probed := true, tpm_found := pr.1, tpm_working := pr.1 }

def has_working_tpm (env : DriverEnv) (s : TpmState) : Bool × TpmState :=
  let s1 := probe_tpm env s
  (s1.tpm_working, s1)

/-! Command transport. -/

/-- The transmit step chain.  Returns the status, the response length the
driver stored through respbufferlen (none when readresp was never reached,
matching the C variable keeping its prior value), and the state with the
senddata counter advanced when a send happened. -/
def transmit (env : DriverEnv) (_locty : Nat) (_to_t : TpmDuration) (s : TpmState) :
    Nat × Option Nat × TpmState :=
  if ¬ s.driver_valid then (TCG_FATAL_COM_ERROR, none, s)
  else if ¬ env.activate_ok then (TCG_FATAL_COM_ERROR, none, s)
  else
    let s1 := { s with sends := s.sends + 1 }
    if ¬ env.send_ok then (TCG_FATAL_COM_ERROR, none, s1)
    else if ¬ env.datavalid_ok then (TCG_FATAL_COM_ERROR, none, s1)
    else if ¬ env.respready_ok then (TCG_FATAL_COM_ERROR, none, s1)
    else if ¬ env.read_ok then (TCG_FATAL_COM_ERROR, none, s1)
    else (TCG_PC_OK, some env.resp_len, s1)

/-- build_and_send_cmd: rejects oversized payload or response expectation
before touching the transport, then frames and transmits.  Returns the
transport status and the device status code extracted from the response
(none when transmit failed and *returnCode was never written). -/
def build_and_send_cmd (env : DriverEnv) (locty : Nat) (append_size return_size : Nat)
    (to_t : TpmDuration) (s : TpmState) : Nat × Option Nat × TpmState :=
  if return_size > 64 ∨ append_size > 20 then (TCG_FIRMWARE_ERROR, none, s)
  else
    let tr := transmit env locty to_t s
    if tr.1 ≠ TCG_PC_OK then (tr.1, none, tr.2.2)
    else (TCG_PC_OK, some env.errcode, tr.2.2)

/-- tpm_set_failure: best-effort quiesce commands with all results ignored,
then the sticky working := false. -/
def tpm_set_failure (env : DriverEnv) (s : TpmState) : TpmState :=
  let r1 := build_and_send_cmd env 0 2 0 TpmDuration.short s
  let r2 := build_and_send_cmd env 0 2 0 TpmDuration.short r1.2.2
  let r3 := build_and_send_cmd env 0 0 0 TpmDuration.short r2.2.2
  { r3.2.2 with tpm_working := false }

/-! ACPI TCPA table locator. -/

/-- A candidate passes when its signature matches and its byte-sum checksum
over its declared length is zero. -/
def validCand (t : TcpaTable) : Bool :=
  t.signature == TCPA_SIGNATURE && checksum t.byteAt t.length == 0

/-- The scan loop of find_tcpa_by_rsdp: n entries remain, the next index to
try is i; stops at the first valid candidate. -/
def scanAux (r : RsdtT) : Nat → Nat → Option TcpaTable
  | 0, _ => none
  | n + 1, i => if validCand (r.entry i) then some (r.entry i) else scanAux r n (i + 1)

/-- Number of loop iterations of the source scan when the declared length
lies below 2^16: the u16 loop offset off runs from 36 in steps of 4
without wrapping, and the condition off + 4 ≤ length stops it after
exactly (length - 36) / 4 entries.  This count describes the loop only in
that wrap-free regime; see find_tcpa_by_rsdp for the other regime. -/
def rsdtEntryCount (len : Nat) : Nat := (len - rsdtEntryOffset) / 4

/-- find_tcpa_by_rsdp.  The loop offset off is a u16, so two regimes
exist.  For a declared root-table length below 2^16 the offset cannot
wrap, the loop bound off + 4 ≤ length is exact, and the scan visits
exactly the rsdtEntryCount declared entries in order, stopping at the
first valid candidate.  For a length of 2^16 or more every u16 value of
off satisfies the bound, so the source loop never exits via it: it keeps
dereferencing entries unboundedly and returns only if some entry
arbitrarily far out validates, otherwise it never returns.  That second
regime has no terminating behavior a total function can embed; it lies
outside this model, which returns none there, and every theorem about the
scan carries the length bound so nothing is proved about it. -/
def find_tcpa_by_rsdp (rsdp : RsdpT) (s : TpmState) : Option TcpaTable × TpmState :=
  match rsdp.rsdt with
  | none => (none, s)
  | some r =>
    if r.length < 65536 then
      match scanAux r (rsdtEntryCount r.length) 0 with
      | some t => (some t, { s with tcpa := some t })
      | none => (none, s)
    else (none, s)

def find_tcpa_table (rsdp : Option RsdpT) (s : TpmState) : Option TcpaTable × TpmState :=
  match s.tcpa with
  | some t => (some t, s)
  | none =>
    match rsdp with
    | some rp => find_tcpa_by_rsdp rp s
    | none => (none, { s with if_shutdown := true })

/-! Event log manager. -/

/-- reset_acpi_log: re-resolve the log area from the TCPA table, zero-fill
it when present, cursor back to base, no last entry, zero entry count. -/
def reset_acpi_log (rsdp : Option RsdpT) (s : TpmState) : TpmState :=
  let f := find_tcpa_table rsdp s
  let s1 :=
    match f.1 with
    | some t =>
      { f.2 with log_area_start_address := t.log_area_start_address,
                 log_area_minimum_length := t.log_area_minimum_length }
    | none => { f.2 with log_area_start_address := 0 }
  let s2 :=
    if s1.log_area_start_address ≠ 0 then
      { s1 with
        logmem := memsetZero s1.logmem s1.log_area_start_address s1.log_area_minimum_length,
        writes := s1.writes ++ [(s1.log_area_start_address, s1.log_area_minimum_length)] }
    else s1
  { s2 with
    log_area_next_entry :=
      if s2.log_area_start_address = 0 then none else some s2.log_area_start_address,
    log_area_last_entry := none,
    entry_count := 0 }

/-- tpm_log_event: the only log mutator.  size is computed in u32
arithmetic; the bound compare converts the pointer difference to u32; on
success the 32-byte header and then the body are copied at the cursor, the
last-entry pointer and cursor advance, and the u32 entry counter ticks. -/
def tpm_log_event (p : Pcpes) (event : Nat → Nat) (s : TpmState) : Nat × TpmState :=
  match s.log_area_next_entry with
  | none => (TCG_PC_LOGOVERFLOW, s)
  | some next =>
    let size := (pcpesHeaderSize + p.eventdatasize) % u32Mod
    if (next + size - s.log_area_start_address) % u32Mod > s.log_area_minimum_length then
      (TCG_PC_LOGOVERFLOW, s)
    else
      let m1 := writeRegion s.logmem next pcpesHeaderSize (listSrc (pcpesBytes p))
      let m2 := writeRegion m1 (next + pcpesHeaderSize) p.eventdatasize event
      (TCG_PC_OK,
        { s with
          logmem := m2,
          writes := s.writes ++ [(next, pcpesHeaderSize), (next + pcpesHeaderSize, p.eventdatasize)],
          log_area_last_entry := some next,
          log_area_next_entry := some (next + size),
          entry_count := (s.entry_count + 1) % u32Mod })

/-! Measurement pipeline. -/

/-- tpm_log_extend_event: require a working TPM, then the PCR bound, then
transmit the extend command with short duration; a transport failure or a
response length different from sizeof(struct tpm_rsp_extend) marks the TPM
failed and returns the transport status unchanged; a log overflow after a
successful extend also marks the TPM failed. -/
def tpm_log_extend_event (env : DriverEnv) (p : Pcpes) (event : Nat → Nat)
    (s : TpmState) : Nat × TpmState :=
  let w := has_working_tpm env s
  if ¬ w.1 then (TCG_GENERAL_ERROR, w.2)
  else if p.pcrindex ≥ 24 then (TCG_INVALID_INPUT_PARA, w.2)
  else
    let tr := transmit env 0 TpmDuration.short w.2
    if tr.1 ≠ TCG_PC_OK ∨ tr.2.1 ≠ some tpmRspExtendSize then
      (tr.1, tpm_set_failure env tr.2.2)
    else
      let lg := tpm_log_event p event tr.2.2
      if lg.1 ≠ TCG_PC_OK then (lg.1, tpm_set_failure env lg.2)
      else (lg.1, lg.2)

/-- tpm_fill_hash: hash into the digest field only when hash input was
supplied (a null hashdata pointer leaves the digest untouched).  The SHA-1
primitive is external and enters as the function sha1fn. -/
def tpm_fill_hash (sha1fn : List Nat → List Nat) (p : Pcpes)
    (hashdata : Option (List Nat)) : Pcpes :=
  match hashdata with
  | some d => { p with digest := sha1fn d }
  | none => p

/-- tpm_add_measurement_to_log: builds the pcpes header (digest initially
zero), fills the hash and runs the extend-then-log pipeline. -/
def tpm_add_measurement_to_log (sha1fn : List Nat → List Nat) (env : DriverEnv)
    (pcrindex event_type : Nat) (event : Nat → Nat) (event_length : Nat)
    (hashdata : Option (List Nat)) (s : TpmState) : Nat × TpmState :=
  let p : Pcpes :=
    { pcrindex := pcrindex, eventtype := event_type,
      digest := List.replicate 20 0, eventdatasize := event_length }
  tpm_log_extend_event env (tpm_fill_hash sha1fn p hashdata) event s

/-! BIOS interface input and output blocks.  The register marshaling copies
the caller blocks; each input structure below carries the fields the
handler reads, including the pcpes found at its logdataptr and the bytes
following it. -/

/-- Input of hash_log_event (struct hlei plus the memory it points at). -/
structure Hlei where
  ipblength : Nat
  hashdata : Option (List Nat)
  pcrindex : Nat
  logeventtype : Nat
  logdatalen : Nat
  pcpes : Pcpes
  event : Nat → Nat

/-- Output block of hash_log_event; eventnumber is none when the handler
never stored to the field. -/
structure Hleo where
  opblength : Nat
  eventnumber : Option Nat

/-- Input of hash_log_extend_event: the block is reinterpreted as the short
or the long layout depending on ipblength, so both readings of the
pcrindex and logdatalen words are carried; the hash data pointer is always
read through the short layout, as in the source. -/
structure Hleei where
  ipblength : Nat
  hashdata : Option (List Nat)
  sPcrindex : Nat
  sLogdatalen : Nat
  lPcrindex : Nat
  lLogdatalen : Nat
  pcpes : Pcpes
  event : Nat → Nat

/-- Output block of hash_log_extend_event; none models the value copied
from the uninitialized local hleo on the success path. -/
structure Hleeo where
  opblength : Nat
  eventnumber : Option Nat

/-- Input of pass_through_to_tpm: the declared block lengths and the
big-endian total length of the embedded TPM request header. -/
structure Pttti where
  ipblength : Nat
  opblength : Nat
  totlen : Nat

/-- Output prefix of pass_through_to_tpm. -/
structure Pttto where
  opblength : Nat

/-- Input of hash_all. -/
structure Hai where
  ipblength : Nat
  hashdataptr : Nat
  hashdatalen : Nat
  algorithmid : Nat
  hashdata : List Nat

/-! Capability entry points. -/

def hash_log_extend_event_int (sha1fn : List Nat → List Nat) (env : DriverEnv)
    (h : Hleei) (s : TpmState) : Nat × Hleeo × TpmState :=
  if is_preboot_if_shutdown s then (TCG_INTERFACE_SHUTDOWN, ⟨4, none⟩, s)
  else if h.ipblength = hleeiShortSize ∨ h.ipblength = hleeiLongSize then
    let pcrindex := if h.ipblength = hleeiShortSize then h.sPcrindex else h.lPcrindex
    let logdatalen := if h.ipblength = hleeiShortSize then h.sLogdatalen else h.lLogdatalen
    let p := h.pcpes
    if p.pcrindex ≥ 24 ∨ p.pcrindex ≠ pcrindex
        ∨ logdatalen ≠ (pcpesHeaderSize + p.eventdatasize) % u32Mod then
      (TCG_INVALID_INPUT_PARA, ⟨4, none⟩, s)
    else
      let p1 := tpm_fill_hash sha1fn p h.hashdata
      let r := tpm_log_extend_event env p1 h.event s
      if r.1 ≠ TCG_PC_OK then (r.1, ⟨4, none⟩, r.2)
      else (TCG_PC_OK, ⟨hleeoSize, none⟩, r.2)
  else (TCG_INVALID_INPUT_PARA, ⟨4, none⟩, s)

def pass_through_to_tpm_int (env : DriverEnv) (t : Pttti) (s : TpmState) :
    Nat × Pttto × TpmState :=
  if is_preboot_if_shutdown s then (TCG_INTERFACE_SHUTDOWN, ⟨4⟩, s)
  else if t.ipblength < ptttiSize + 4
      ∨ t.ipblength ≠ (ptttiSize + t.totlen) % u32Mod
      ∨ t.opblength < ptttoSize then
    (TCG_INVALID_INPUT_PARA, ⟨4⟩, s)
  else
    let tr := transmit env 0 TpmDuration.long s
    if tr.1 ≠ TCG_PC_OK then (tr.1, ⟨4⟩, tr.2.2)
    else (TCG_PC_OK, ⟨ptttoSize + tr.2.1.getD 0⟩, tr.2.2)

def shutdown_preboot_interface (s : TpmState) : Nat × TpmState :=
  if ¬ is_preboot_if_shutdown s then (TCG_PC_OK, { s with if_shutdown := true })
  else (TCG_INTERFACE_SHUTDOWN, s)

def hash_log_event_int (sha1fn : List Nat → List Nat) (h : Hlei) (s : TpmState) :
    Nat × Hleo × TpmState :=
  if is_preboot_if_shutdown s then (TCG_INTERFACE_SHUTDOWN, ⟨2, none⟩, s)
  else if h.ipblength ≠ hleiSize then (TCG_INVALID_INPUT_PARA, ⟨2, none⟩, s)
  else
    let p := h.pcpes
    if p.pcrindex ≥ 24 ∨ p.pcrindex ≠ h.pcrindex ∨ p.eventtype ≠ h.logeventtype
        ∨ h.logdatalen ≠ (pcpesHeaderSize + p.eventdatasize) % u32Mod then
      (TCG_INVALID_INPUT_PARA, ⟨2, none⟩, s)
    else
      let p1 := tpm_fill_hash sha1fn p h.hashdata
      let r := tpm_log_event p1 h.event s
      if r.1 ≠ TCG_PC_OK then (r.1, ⟨2, none⟩, r.2)
      else (TCG_PC_OK, ⟨hleoSize, some r.2.entry_count⟩, r.2)

/-- hash_all_int; the SHA-1 primitive always reports success, so the digest
is returned whenever validation passes. -/
def hash_all_int (sha1fn : List Nat → List Nat) (h : Hai) (s : TpmState) :
    Nat × Option (List Nat) × TpmState :=
  if is_preboot_if_shutdown s then (TCG_INTERFACE_SHUTDOWN, none, s)
  else if h.ipblength ≠ haiSize ∨ h.hashdataptr = 0 ∨ h.hashdatalen = 0
      ∨ h.algorithmid ≠ TPM_ALG_SHA then
    (TCG_INVALID_INPUT_PARA, none, s)
  else (TCG_PC_OK, some (sha1fn h.hashdata), s)

def tss_int (s : TpmState) : Nat × TpmState :=
  if ¬ is_preboot_if_shutdown s then (TCG_PC_UNSUPPORTED, s)
  else (TCG_INTERFACE_SHUTDOWN, s)

/-- compact_hash_log_extend_event_int: synthesizes a 4-byte compact-hash
entry from the 32-bit info word and runs the full extend-then-log path; on
success the post-append entry counter is stored to the caller edx (the
Option output is none when edx was never written). -/
def compact_hash_log_extend_event_int (sha1fn : List Nat → List Nat)
    (env : DriverEnv) (buffer : Option (List Nat)) (info _length pcrindex : Nat)
    (s : TpmState) : Nat × Option Nat × TpmState :=
  let p : Pcpes :=
    { pcrindex := pcrindex, eventtype := EV_COMPACT_HASH,
      digest := List.replicate 20 0, eventdatasize := 4 }
  if is_preboot_if_shutdown s then (TCG_INTERFACE_SHUTDOWN, none, s)
  else
    let p1 := tpm_fill_hash sha1fn p buffer
    let r := tpm_log_extend_event env p1 (listSrc (le32 info)) s
    if r.1 = TCG_PC_OK then (r.1, some r.2.entry_count, r.2)
    else (r.1, none, r.2)

/-! Interrupt dispatcher. -/

/-- One int-1Ah sub-request with its marshaled input. -/
inductive TcgRequest where
  | statusCheck
  | hashLogExtendEvent (h : Hleei)
  | passThrough (t : Pttti)
  | shutdownPreboot
  | hashLogEvent (h : Hlei)
  | hashAll (h : Hai)
  | tss
  | compactHashLogExtendEvent (buffer : Option (List Nat)) (info length pcrindex : Nat)
  | unknown

/-- True for the capability entry points that are gated on the interface
shutdown latch: all dispatcher cases except status check and the unknown
request (which only sets the carry flag). -/
def TcgRequest.isShutdownGated : TcgRequest → Bool
  | .statusCheck => false
  | .unknown => false
  | _ => true

/-- tpm_interrupt_handler32, returning the eax status and the state. -/
def tpm_interrupt_handler32 (sha1fn : List Nat → List Nat) (env : DriverEnv)
    (req : TcgRequest) (s : TpmState) : Nat × TpmState :=
  match req with
  | .statusCheck =>
    let pr := is_tpm_present env s
    if ¬ pr.1 then (TCG_PC_TPM_NOT_PRESENT, pr.2) else (TCG_PC_OK, pr.2)
  | .hashLogExtendEvent h =>
    let r := hash_log_extend_event_int sha1fn env h s
    (r.1, r.2.2)
  | .passThrough t =>
    let r := pass_through_to_tpm_int env t s
    (r.1, r.2.2)
  | .shutdownPreboot => shutdown_preboot_interface s
  | .hashLogEvent h =>
    let r := hash_log_event_int sha1fn h s
    (r.1, r.2.2)
  | .hashAll h =>
    let r := hash_all_int sha1fn h s
    (r.1, r.2.2)
  | .tss => tss_int s
  | .compactHashLogExtendEvent b i l pcr =>
    let r := compact_hash_log_extend_event_int sha1fn env b i l pcr s
    (r.1, r.2.2)
  | .unknown => (TCG_PC_OK, s)

/-! Iterated append, for the entry-count claim. -/

/-- Fold a list of append requests through tpm_log_event. -/
def appendAll (reqs : List (Pcpes × (Nat → Nat))) (s : TpmState) : TpmState :=
  reqs.foldl (fun st pr => (tpm_log_event pr.1 pr.2 st).2) s

/-- Every append of the sequence, run in order, returns success. -/
def allAppendsSucceed : List (Pcpes × (Nat → Nat)) → TpmState → Bool
  | [], _ => true
  | pr :: rest, s =>
    (tpm_log_event pr.1 pr.2 s).1 == TCG_PC_OK
      && allAppendsSucceed rest (tpm_log_event pr.1 pr.2 s).2

/-! Concrete fixtures used by witnesses and counterexamples. -/

/-- A flat memory filled with the byte 7. -/
def memSeven : Nat → Nat := fun _ => 7

/-- A session state after a successful probe with an established 4096-byte
log region based at address 4096 and an empty log. -/
def baseState : TpmState :=
  { tpm_probed := true, tpm_found := true, tpm_working := true,
    if_shutdown := false, driver_valid := true, tcpa := none,
    log_area_minimum_length := 4096, log_area_start_address := 4096,
    entry_count := 0, log_area_next_entry := some 4096,
    log_area_last_entry := none, logmem := memSeven, writes := [], sends := 0 }

/-- A driver environment where every transport step succeeds and the
extend response has exactly the expected length. -/
def envAllOk : DriverEnv :=
  { present := true, activate_ok := true, send_ok := true, datavalid_ok := true,
    respready_ok := true, read_ok := true, resp_len := tpmRspExtendSize, errcode := 0 }

/-- A stand-in for the external SHA-1 primitive. -/
def shaStub : List Nat → List Nat := fun _ => List.replicate 20 1

/-- A small well-formed PCR event header: PCR 1, a 4-byte body. -/
def smallEvent : Pcpes :=
  { pcrindex := 1, eventtype := 5, digest := List.replicate 20 0, eventdatasize := 4 }

/-! Claim C2: overflow rejection of tpm_log_event. -/

/-- Reduction of tpm_log_event in the overflow branch. -/
theorem tpm_log_event_ov_eq (p : Pcpes) (ev : Nat → Nat) (s : TpmState) (next : Nat)
    (hne : s.log_area_next_entry = some next)
    (hcond : (next + (pcpesHeaderSize + p.eventdatasize) % u32Mod
        - s.log_area_start_address) % u32Mod > s.log_area_minimum_length) :
    tpm_log_event p ev s = (TCG_PC_LOGOVERFLOW, s) := by
  unfold tpm_log_event
  rw [hne]
  simp only [if_pos hcond]

/-- Reduction of tpm_log_event in the success branch. -/
theorem tpm_log_event_ok_eq (p : Pcpes) (ev : Nat → Nat) (s : TpmState) (next : Nat)
    (hne : s.log_area_next_entry = some next)
    (hcond : ¬ ((next + (pcpesHeaderSize + p.eventdatasize) % u32Mod
        - s.log_area_start_address) % u32Mod > s.log_area_minimum_length)) :
    tpm_log_event p ev s =
      (TCG_PC_OK,
        { s with
          logmem := writeRegion
            (writeRegion s.logmem next pcpesHeaderSize (listSrc (pcpesBytes p)))
            (next + pcpesHeaderSize) p.eventdatasize ev,
          writes := s.writes
            ++ [(next, pcpesHeaderSize), (next + pcpesHeaderSize, p.eventdatasize)],
          log_area_last_entry := some next,
          log_area_next_entry := some (next + (pcpesHeaderSize + p.eventdatasize) % u32Mod),
          entry_count := (s.entry_count + 1) % u32Mod }) := by
  unfold tpm_log_event
  rw [hne]
  simp only [if_neg hcond]

/-- C2 counterexample: with the u32-wrapping body size 2^32 - 32, the
append from cursor offset 0 of a 4096-byte region is accepted (status OK,
not LogOverflow) and copies body bytes far past base + capacity. -/
theorem C2_counterexample :
    (tpm_log_event { smallEvent with eventdatasize := u32Mod - pcpesHeaderSize }
        memSeven baseState).1 = TCG_PC_OK ∧
    TCG_PC_OK ≠ TCG_PC_LOGOVERFLOW ∧
    (tpm_log_event { smallEvent with eventdatasize := u32Mod - pcpesHeaderSize }
        memSeven baseState).2.writes = [(4096, 32), (4128, u32Mod - 32)] ∧
    baseState.log_area_start_address + baseState.log_area_minimum_length = 8192 ∧
    4128 + (u32Mod - 32) > 8192 := by
  refine ⟨rfl, by decide, ?_, rfl, by decide⟩
  rfl

/-- C2 (amended): provided the u32 size computation does not wrap (cursor
offset + header size + body size below 2^32), an append whose end would
exceed capacityBytes returns LogOverflow with the state (buffer, writes,
cursor, last entry, entry count) fully unchanged, and a fitting append
performs exactly the header and body copies, both ending within
base + capacity. -/
theorem C2_amended (p : Pcpes) (ev : Nat → Nat) (s : TpmState) (next : Nat)
    (hne : s.log_area_next_entry = some next)
    (hbase : s.log_area_start_address ≤ next)
    (hnw : next - s.log_area_start_address + pcpesHeaderSize + p.eventdatasize < u32Mod) :
    ((next - s.log_area_start_address) + pcpesHeaderSize + p.eventdatasize
        > s.log_area_minimum_length →
      tpm_log_event p ev s = (TCG_PC_LOGOVERFLOW, s)) ∧
    ((next - s.log_area_start_address) + pcpesHeaderSize + p.eventdatasize
        ≤ s.log_area_minimum_length →
      (tpm_log_event p ev s).1 = TCG_PC_OK ∧
      (tpm_log_event p ev s).2.writes
        = s.writes ++ [(next, pcpesHeaderSize), (next + pcpesHeaderSize, p.eventdatasize)] ∧
      next + pcpesHeaderSize + p.eventdatasize
        ≤ s.log_area_start_address + s.log_area_minimum_length) := by
  have hsz : (pcpesHeaderSize + p.eventdatasize) % u32Mod
      = pcpesHeaderSize + p.eventdatasize := Nat.mod_eq_of_lt (by omega)
  have hexpr : (next + (pcpesHeaderSize + p.eventdatasize) % u32Mod
      - s.log_area_start_address) % u32Mod
      = (next - s.log_area_start_address) + pcpesHeaderSize + p.eventdatasize := by
    rw [hsz]
    have h1 : next + (pcpesHeaderSize + p.eventdatasize) - s.log_area_start_address
        = (next - s.log_area_start_address) + pcpesHeaderSize + p.eventdatasize := by
      omega
    rw [h1]
    exact Nat.mod_eq_of_lt (by omega)
  constructor
  · intro hover
    exact tpm_log_event_ov_eq p ev s next hne (by rw [hexpr]; omega)
  · intro hfit
    have hcond : ¬ ((next + (pcpesHeaderSize + p.eventdatasize) % u32Mod
        - s.log_area_start_address) % u32Mod > s.log_area_minimum_length) := by
      rw [hexpr]; omega
    rw [tpm_log_event_ok_eq p ev s next hne hcond]
    refine ⟨rfl, rfl, by omega⟩

/-- Witness for C2 (amended) at the base state: a 5000-byte body overflows
the 4096-byte region and is rejected unchanged; the small 4-byte event is
accepted with its two in-bounds copies. -/
theorem C2_amended_witness :
    (tpm_log_event { smallEvent with eventdatasize := 5000 } memSeven baseState
        = (TCG_PC_LOGOVERFLOW, baseState)) ∧
    ((tpm_log_event smallEvent memSeven baseState).1 = TCG_PC_OK ∧
      (tpm_log_event smallEvent memSeven baseState).2.writes
        = baseState.writes ++ [(4096, pcpesHeaderSize), (4096 + pcpesHeaderSize, 4)] ∧
      4096 + pcpesHeaderSize + 4
        ≤ baseState.log_area_start_address + baseState.log_area_minimum_length) := by
  constructor
  · exact (C2_amended { smallEvent with eventdatasize := 5000 } memSeven baseState 4096
      rfl (by decide) (by decide)).1 (by decide)
  · exact (C2_amended smallEvent memSeven baseState 4096
      rfl (by decide) (by decide)).2 (by decide)

/-! Generic reduction lemmas about the pipeline. -/

theorem probe_tpm_of_probed (env : DriverEnv) (s : TpmState) (h : s.tpm_probed = true) :
    probe_tpm env s = s := by
  unfold probe_tpm
  rw [h]
  simp

theorem tpm_set_failure_working (env : DriverEnv) (s : TpmState) :
    (tpm_set_failure env s).tpm_working = false := rfl

theorem tpm_fill_hash_pcrindex (f : List Nat → List Nat) (p : Pcpes)
    (hd : Option (List Nat)) : (tpm_fill_hash f p hd).pcrindex = p.pcrindex := by
  cases hd <;> rfl

theorem tpm_fill_hash_eventdatasize (f : List Nat → List Nat) (p : Pcpes)
    (hd : Option (List Nat)) : (tpm_fill_hash f p hd).eventdatasize = p.eventdatasize := by
  cases hd <;> rfl

/-- With a probed but failed TPM, the extend pipeline rejects immediately
and touches nothing. -/
theorem tpm_log_extend_event_not_working (env : DriverEnv) (p : Pcpes) (ev : Nat → Nat)
    (s : TpmState) (hp : s.tpm_probed = true) (hw : s.tpm_working = false) :
    tpm_log_extend_event env p ev s = (TCG_GENERAL_ERROR, s) := by
  unfold tpm_log_extend_event has_working_tpm
  rw [probe_tpm_of_probed env s hp]
  simp [hw]

/-- With a working TPM and an out-of-range PCR index, the extend pipeline
rejects before any transmission or log access. -/
theorem tpm_log_extend_event_bad_pcr (env : DriverEnv) (p : Pcpes) (ev : Nat → Nat)
    (s : TpmState) (hp : s.tpm_probed = true) (hw : s.tpm_working = true)
    (hpcr : p.pcrindex ≥ 24) :
    tpm_log_extend_event env p ev s = (TCG_INVALID_INPUT_PARA, s) := by
  unfold tpm_log_extend_event has_working_tpm
  rw [probe_tpm_of_probed env s hp]
  simp [hw, hpcr]

/-- The transport-failure branch of the extend pipeline: markFailed runs
and the transmit status is passed through unchanged. -/
theorem tpm_log_extend_event_transport (env : DriverEnv) (p : Pcpes) (ev : Nat → Nat)
    (s : TpmState) (hp : s.tpm_probed = true) (hw : s.tpm_working = true)
    (hpcr : p.pcrindex < 24)
    (hfail : (transmit env 0 TpmDuration.short s).1 ≠ TCG_PC_OK
        ∨ (transmit env 0 TpmDuration.short s).2.1 ≠ some tpmRspExtendSize) :
    tpm_log_extend_event env p ev s
      = ((transmit env 0 TpmDuration.short s).1,
         tpm_set_failure env (transmit env 0 TpmDuration.short s).2.2) := by
  unfold tpm_log_extend_event has_working_tpm
  rw [probe_tpm_of_probed env s hp]
  have hnpcr : ¬ p.pcrindex ≥ 24 := by omega
  simp only [hw, not_true, if_neg, if_pos hfail]
  simp [hnpcr, hfail]

/-! Claim C1: failure handling of the PCR-extend transmission. -/

/-- A transport stub whose response is one byte short of the expected
extend-response size while every transport step reports success. -/
def envShortResp : DriverEnv := { envAllOk with resp_len := tpmRspExtendSize - 1 }

/-- C1 counterexample: with a transport that reports success but a
one-byte-short response, tpm_log_extend_event marks the TPM failed yet
returns 0 (success), not FatalComError. -/
theorem C1_counterexample :
    (tpm_log_extend_event envShortResp smallEvent memSeven baseState).1 = TCG_PC_OK ∧
    TCG_PC_OK ≠ TCG_FATAL_COM_ERROR ∧
    (tpm_log_extend_event envShortResp smallEvent memSeven baseState).2.tpm_working
      = false := by
  refine ⟨rfl, by decide, rfl⟩

/-- C1 (amended): on a transport failure or a response-length mismatch the
pipeline calls markFailed (so the working flag is false afterwards) and
returns the transmit status unchanged: FatalComError when the transport
itself failed, but 0 (success) when the transport reported success with a
response of the wrong length. -/
theorem C1_amended (env : DriverEnv) (p : Pcpes) (ev : Nat → Nat) (s : TpmState)
    (hp : s.tpm_probed = true) (hw : s.tpm_working = true) (hpcr : p.pcrindex < 24)
    (hfail : (transmit env 0 TpmDuration.short s).1 ≠ TCG_PC_OK
        ∨ (transmit env 0 TpmDuration.short s).2.1 ≠ some tpmRspExtendSize) :
    (tpm_log_extend_event env p ev s).1 = (transmit env 0 TpmDuration.short s).1 ∧
    (tpm_log_extend_event env p ev s).2.tpm_working = false := by
  rw [tpm_log_extend_event_transport env p ev s hp hw hpcr hfail]
  exact ⟨rfl, tpm_set_failure_working env _⟩

/-- Witness for C1 (amended) at the short-response stub. -/
theorem C1_amended_witness :
    (tpm_log_extend_event envShortResp smallEvent memSeven baseState).1
      = (transmit envShortResp 0 TpmDuration.short baseState).1 ∧
    (tpm_log_extend_event envShortResp smallEvent memSeven baseState).2.tpm_working
      = false :=
  C1_amended envShortResp smallEvent memSeven baseState rfl rfl (by decide) (by decide)

/-! Claim C3: behavior of the entry points after markFailed. -/

/-- A driver stub whose locality activation fails, so the quiesce commands
of markFailed reach no wire send. -/
def envNoActivate : DriverEnv := { envAllOk with activate_ok := false }

/-- The base session immediately after markFailed has run. -/
def failedState : TpmState := tpm_set_failure envNoActivate baseState

/-- A validation-passing hash_log_event input block for the small event. -/
def validHlei : Hlei :=
  { ipblength := hleiSize, hashdata := none, pcrindex := 1, logeventtype := 5,
    logdatalen := 36, pcpes := smallEvent, event := memSeven }

/-- A validation-passing hash_log_extend_event input block (short layout)
for the small event. -/
def validHleei : Hleei :=
  { ipblength := hleeiShortSize, hashdata := none, sPcrindex := 1, sLogdatalen := 36,
    lPcrindex := 1, lLogdatalen := 36, pcpes := smallEvent, event := memSeven }

/-- C3 counterexample: after markFailed has run, the hash-log-event entry
point still appends to the log and returns success, not GeneralError. -/
theorem C3_counterexample :
    failedState.tpm_working = false ∧
    failedState.if_shutdown = false ∧
    (hash_log_event_int shaStub validHlei failedState).1 = TCG_PC_OK ∧
    TCG_PC_OK ≠ TCG_GENERAL_ERROR ∧
    (hash_log_event_int shaStub validHlei failedState).2.2.writes
      = [(4096, 32), (4128, 4)] ∧
    (hash_log_event_int shaStub validHlei failedState).2.2.entry_count = 1 := by
  refine ⟨rfl, rfl, rfl, by decide, ?_, rfl⟩
  rfl

/-- C3 (amended): once markFailed has run (and until re-initialization),
the PCR-extend measurement paths: the extend pipeline itself, the
hash-log-extend-event entry point on validation-passing input, the
compact-hash-log-extend-event entry point, and the internal measurement
call, return GeneralError and leave the state untouched (no transmission
and no log write); the log-only hash-log-event path and pass-through are
not gated on the working flag. -/
theorem C3_amended :
    (∀ env p ev s, s.tpm_probed = true → s.tpm_working = false →
      tpm_log_extend_event env p ev s = (TCG_GENERAL_ERROR, s)) ∧
    (∀ (sha1fn : List Nat → List Nat) env h s,
      s.tpm_probed = true → s.tpm_working = false → s.if_shutdown = false →
      h.ipblength = hleeiShortSize →
      ¬ (h.pcpes.pcrindex ≥ 24 ∨ h.pcpes.pcrindex ≠ h.sPcrindex
          ∨ h.sLogdatalen ≠ (pcpesHeaderSize + h.pcpes.eventdatasize) % u32Mod) →
      hash_log_extend_event_int sha1fn env h s
        = (TCG_GENERAL_ERROR, ⟨4, none⟩, s)) ∧
    (∀ (sha1fn : List Nat → List Nat) env buffer info len pcr s,
      s.tpm_probed = true → s.tpm_working = false → s.if_shutdown = false →
      compact_hash_log_extend_event_int sha1fn env buffer info len pcr s
        = (TCG_GENERAL_ERROR, none, s)) ∧
    (∀ (sha1fn : List Nat → List Nat) env pcr et ev elen hd s,
      s.tpm_probed = true → s.tpm_working = false →
      tpm_add_measurement_to_log sha1fn env pcr et ev elen hd s
        = (TCG_GENERAL_ERROR, s)) := by
  refine ⟨?_, ?_, ?_, ?_⟩
  · intro env p ev s hp hw
    exact tpm_log_extend_event_not_working env p ev s hp hw
  · intro sha1fn env h s hp hw hsd hlen hval
    have hred := tpm_log_extend_event_not_working env
      (tpm_fill_hash sha1fn h.pcpes h.hashdata) h.event s hp hw
    simp [hash_log_extend_event_int, is_preboot_if_shutdown, hsd, hlen, hval, hred,
      TCG_GENERAL_ERROR, TCG_PC_OK]
  · intro sha1fn env buffer info len pcr s hp hw hsd
    have hred := tpm_log_extend_event_not_working env
      (tpm_fill_hash sha1fn
        { pcrindex := pcr, eventtype := EV_COMPACT_HASH,
          digest := List.replicate 20 0, eventdatasize := 4 } buffer)
      (listSrc (le32 info)) s hp hw
    simp [compact_hash_log_extend_event_int, is_preboot_if_shutdown, hsd,
      TCG_GENERAL_ERROR, TCG_PC_OK] at hred ⊢
    simp [hred]
  · intro sha1fn env pcr et ev elen hd s hp hw
    unfold tpm_add_measurement_to_log
    exact tpm_log_extend_event_not_working env _ ev s hp hw

/-- Witness for C3 (amended) at the failed session. -/
theorem C3_amended_witness :
    tpm_log_extend_event envAllOk smallEvent memSeven failedState
      = (TCG_GENERAL_ERROR, failedState) ∧
    hash_log_extend_event_int shaStub envAllOk validHleei failedState
      = (TCG_GENERAL_ERROR, ⟨4, none⟩, failedState) ∧
    compact_hash_log_extend_event_int shaStub envAllOk none 7 0 1 failedState
      = (TCG_GENERAL_ERROR, none, failedState) ∧
    tpm_add_measurement_to_log shaStub envAllOk 1 5 memSeven 4 none failedState
      = (TCG_GENERAL_ERROR, failedState) :=
  ⟨C3_amended.1 envAllOk smallEvent memSeven failedState rfl rfl,
   C3_amended.2.1 shaStub envAllOk validHleei failedState rfl rfl rfl rfl (by decide),
   C3_amended.2.2.1 shaStub envAllOk none 7 0 1 failedState rfl rfl rfl,
   C3_amended.2.2.2 shaStub envAllOk 1 5 memSeven 4 none failedState rfl rfl⟩

/-! Claim C4: the PCR bound is enforced before any transmit or log write. -/

/-- C4: a request carrying pcrIndex at or above 24 is rejected with
InvalidInput by every path that extends or logs, the check coming before
any transmission or log write, so the state is returned untouched: the
hash-log-event entry point, the hash-log-extend-event entry point (both
with the interface up and a recognized block layout), the extend pipeline
and the compact-hash entry point (these two once the working-TPM gate,
which precedes the PCR check, has passed). -/
theorem C4_pcr_bound :
    (∀ (sha1fn : List Nat → List Nat) h s, s.if_shutdown = false →
      h.ipblength = hleiSize → h.pcpes.pcrindex ≥ 24 →
      hash_log_event_int sha1fn h s = (TCG_INVALID_INPUT_PARA, ⟨2, none⟩, s)) ∧
    (∀ (sha1fn : List Nat → List Nat) env h s, s.if_shutdown = false →
      (h.ipblength = hleeiShortSize ∨ h.ipblength = hleeiLongSize) →
      h.pcpes.pcrindex ≥ 24 →
      hash_log_extend_event_int sha1fn env h s
        = (TCG_INVALID_INPUT_PARA, ⟨4, none⟩, s)) ∧
    (∀ env p ev s, s.tpm_probed = true → s.tpm_working = true → p.pcrindex ≥ 24 →
      tpm_log_extend_event env p ev s = (TCG_INVALID_INPUT_PARA, s)) ∧
    (∀ (sha1fn : List Nat → List Nat) env buffer info len pcr s,
      s.if_shutdown = false → s.tpm_probed = true → s.tpm_working = true →
      pcr ≥ 24 →
      compact_hash_log_extend_event_int sha1fn env buffer info len pcr s
        = (TCG_INVALID_INPUT_PARA, none, s)) := by
  refine ⟨?_, ?_, ?_, ?_⟩
  · intro sha1fn h s hsd hlen hpcr
    simp [hash_log_event_int, is_preboot_if_shutdown, hsd, hlen, hpcr]
  · intro sha1fn env h s hsd hlen hpcr
    rcases hlen with hlen | hlen <;>
      simp [hash_log_extend_event_int, is_preboot_if_shutdown, hsd, hlen, hpcr,
        hleeiShortSize, hleeiLongSize]
  · intro env p ev s hp hw hpcr
    exact tpm_log_extend_event_bad_pcr env p ev s hp hw hpcr
  · intro sha1fn env buffer info len pcr s hsd hp hw hpcr
    have hred := tpm_log_extend_event_bad_pcr env
      (tpm_fill_hash sha1fn
        { pcrindex := pcr, eventtype := EV_COMPACT_HASH,
          digest := List.replicate 20 0, eventdatasize := 4 } buffer)
      (listSrc (le32 info)) s hp hw
      (by rw [tpm_fill_hash_pcrindex]; exact hpcr)
    simp [compact_hash_log_extend_event_int, is_preboot_if_shutdown, hsd,
      TCG_INVALID_INPUT_PARA, TCG_PC_OK] at hred ⊢
    simp [hred]

/-- A hash-log-event input whose embedded entry names PCR 30. -/
def badPcrHlei : Hlei :=
  { validHlei with pcrindex := 30, pcpes := { smallEvent with pcrindex := 30 } }

/-- A hash-log-extend-event input whose embedded entry names PCR 30. -/
def badPcrHleei : Hleei :=
  { validHleei with sPcrindex := 30, pcpes := { smallEvent with pcrindex := 30 } }

/-- Witness for C4 at concrete out-of-range requests. -/
theorem C4_pcr_bound_witness :
    hash_log_event_int shaStub badPcrHlei baseState
      = (TCG_INVALID_INPUT_PARA, ⟨2, none⟩, baseState) ∧
    hash_log_extend_event_int shaStub envAllOk badPcrHleei baseState
      = (TCG_INVALID_INPUT_PARA, ⟨4, none⟩, baseState) ∧
    tpm_log_extend_event envAllOk { smallEvent with pcrindex := 24 } memSeven baseState
      = (TCG_INVALID_INPUT_PARA, baseState) ∧
    compact_hash_log_extend_event_int shaStub envAllOk none 7 0 99 baseState
      = (TCG_INVALID_INPUT_PARA, none, baseState) :=
  ⟨C4_pcr_bound.1 shaStub badPcrHlei baseState rfl rfl (by decide),
   C4_pcr_bound.2.1 shaStub envAllOk badPcrHleei baseState rfl (Or.inl rfl) (by decide),
   C4_pcr_bound.2.2.1 envAllOk { smallEvent with pcrindex := 24 } memSeven baseState
     rfl rfl (by decide),
   C4_pcr_bound.2.2.2 shaStub envAllOk none 7 0 99 baseState rfl rfl rfl (by decide)⟩

/-! Claim C5: the interface-shutdown latch. -/

/-- C5: once the shutdown latch is set, every capability entry point except
status check (including a second shutdown request, which reports
InterfaceShutdown rather than success) returns InterfaceShutdown and
leaves the state untouched (no TPM and no log access), and no dispatcher
request whatsoever clears the latch. -/
theorem C5_shutdown_latch (sha1fn : List Nat → List Nat) (env : DriverEnv)
    (s : TpmState) (hsd : s.if_shutdown = true) :
    (∀ req : TcgRequest, req.isShutdownGated = true →
      tpm_interrupt_handler32 sha1fn env req s = (TCG_INTERFACE_SHUTDOWN, s)) ∧
    (∀ req : TcgRequest,
      (tpm_interrupt_handler32 sha1fn env req s).2.if_shutdown = true) := by
  constructor
  · intro req hreq
    cases req <;>
      simp_all [tpm_interrupt_handler32, TcgRequest.isShutdownGated,
        hash_log_extend_event_int, pass_through_to_tpm_int,
        shutdown_preboot_interface, hash_log_event_int, hash_all_int, tss_int,
        compact_hash_log_extend_event_int, is_preboot_if_shutdown]
  · intro req
    cases req <;> cases henv : env.present <;>
      simp_all [tpm_interrupt_handler32, hash_log_extend_event_int,
        pass_through_to_tpm_int, shutdown_preboot_interface, hash_log_event_int,
        hash_all_int, tss_int, compact_hash_log_extend_event_int,
        is_preboot_if_shutdown, is_tpm_present]

/-- A session with the preboot interface latched off. -/
def shutdownState : TpmState := { baseState with if_shutdown := true }

/-- Witness for C5 at the latched session: the TSS request, a second
shutdown request and a hash-log-event request all refuse with
InterfaceShutdown, and a status check leaves the latch set. -/
theorem C5_shutdown_latch_witness :
    tpm_interrupt_handler32 shaStub envAllOk TcgRequest.tss shutdownState
      = (TCG_INTERFACE_SHUTDOWN, shutdownState) ∧
    tpm_interrupt_handler32 shaStub envAllOk TcgRequest.shutdownPreboot shutdownState
      = (TCG_INTERFACE_SHUTDOWN, shutdownState) ∧
    tpm_interrupt_handler32 shaStub envAllOk (TcgRequest.hashLogEvent validHlei)
        shutdownState
      = (TCG_INTERFACE_SHUTDOWN, shutdownState) ∧
    (tpm_interrupt_handler32 shaStub envAllOk TcgRequest.statusCheck
        shutdownState).2.if_shutdown = true :=
  ⟨(C5_shutdown_latch shaStub envAllOk shutdownState rfl).1 TcgRequest.tss rfl,
   (C5_shutdown_latch shaStub envAllOk shutdownState rfl).1 TcgRequest.shutdownPreboot rfl,
   (C5_shutdown_latch shaStub envAllOk shutdownState rfl).1
     (TcgRequest.hashLogEvent validHlei) rfl,
   (C5_shutdown_latch shaStub envAllOk shutdownState rfl).2 TcgRequest.statusCheck⟩

/-! Claim C6: the ACPI locator. -/

/-- A successful scan yields an entry of the table, it is valid, and every
entry scanned before it in table order is invalid. -/
theorem scanAux_some_spec (r : RsdtT) :
    ∀ n i t, scanAux r n i = some t →
      ∃ k, k < n ∧ r.entry (i + k) = t ∧ validCand t = true ∧
        ∀ j, j < k → validCand (r.entry (i + j)) = false := by
  intro n
  induction n with
  | zero => intro i t h; simp [scanAux] at h
  | succ m ih =>
    intro i t h
    unfold scanAux at h
    by_cases hv : validCand (r.entry i) = true
    · rw [if_pos hv] at h
      refine ⟨0, Nat.succ_pos m, ?_, ?_, ?_⟩
      · simpa using (Option.some.injEq _ _ ▸ h).symm ▸ rfl
      · rw [← Option.some.inj h]; exact hv
      · intro j hj; omega
    · rw [if_neg hv] at h
      obtain ⟨k, hk, he, hvt, hprev⟩ := ih (i + 1) t h
      refine ⟨k + 1, by omega, by rw [← he]; ring_nf, hvt, ?_⟩
      intro j hj
      cases j with
      | zero => simpa using Bool.not_eq_true _ ▸ (by simpa using hv)
      | succ j0 =>
        have := hprev j0 (by omega)
        rw [← this]; ring_nf

/-- A failed scan means every entry in range is invalid. -/
theorem scanAux_none_spec (r : RsdtT) :
    ∀ n i, scanAux r n i = none →
      ∀ j, j < n → validCand (r.entry (i + j)) = false := by
  intro n
  induction n with
  | zero => intro i _ j hj; omega
  | succ m ih =>
    intro i h j hj
    unfold scanAux at h
    by_cases hv : validCand (r.entry i) = true
    · rw [if_pos hv] at h; exact absurd h (by simp)
    · rw [if_neg hv] at h
      cases j with
      | zero => simpa using (Bool.not_eq_true _).mp (by simpa using hv)
      | succ j0 =>
        have := ih (i + 1) h j0 (by omega)
        rw [← this]; ring_nf

/-- C6 counterexample: with a root pointer present but no valid TCPA table
among the root entries, the locator returns none yet the preboot interface
is not disabled (the shutdown latch stays clear), while the claim requires
it to be disabled in that case. -/
theorem C6_counterexample :
    (find_tcpa_table
        (some { rsdt := some { length := 40, entry := fun _ =>
          { signature := 0, length := 10, byteAt := fun _ => 0,
            log_area_minimum_length := 0, log_area_start_address := 0 } } })
        baseState).1 = none ∧
    (find_tcpa_table
        (some { rsdt := some { length := 40, entry := fun _ =>
          { signature := 0, length := 10, byteAt := fun _ => 0,
            log_area_minimum_length := 0, log_area_start_address := 0 } } })
        baseState).2.if_shutdown = false :=
  ⟨rfl, rfl⟩

/-- C6 (amended): a cached table is returned at once, never re-scanned;
with no root pointer the locator returns none and disables the preboot
interface; with a root pointer whose root table address is null it returns
none without disabling; and provided the root table's declared length lies
below 2^16 (so the u16 loop offset cannot wrap and the loop bound is
exact), a fresh scan returns and caches the first entry in table order
whose signature matches and whose byte-sum checksum over its declared
length is zero, and returns none leaving the state (and the latch)
untouched when no entry qualifies. -/
theorem C6_amended :
    (∀ rsdp s t, s.tcpa = some t → find_tcpa_table rsdp s = (some t, s)) ∧
    (∀ s, s.tcpa = none →
      find_tcpa_table none s = (none, { s with if_shutdown := true })) ∧
    (∀ rp s, s.tcpa = none → rp.rsdt = none →
      find_tcpa_table (some rp) s = (none, s)) ∧
    (∀ rp r s t, s.tcpa = none → rp.rsdt = some r → r.length < 65536 →
      (find_tcpa_table (some rp) s).1 = some t →
      (find_tcpa_table (some rp) s).2 = { s with tcpa := some t } ∧
      ∃ k, k < rsdtEntryCount r.length ∧ r.entry k = t ∧ validCand t = true ∧
        ∀ j, j < k → validCand (r.entry j) = false) ∧
    (∀ rp r s, s.tcpa = none → rp.rsdt = some r → r.length < 65536 →
      (find_tcpa_table (some rp) s).1 = none →
      (find_tcpa_table (some rp) s).2 = s ∧
      ∀ j, j < rsdtEntryCount r.length → validCand (r.entry j) = false) := by
  refine ⟨?_, ?_, ?_, ?_, ?_⟩
  · intro rsdp s t hc
    unfold find_tcpa_table
    rw [hc]
  · intro s hc
    unfold find_tcpa_table
    rw [hc]
  · intro rp s hc hr
    unfold find_tcpa_table find_tcpa_by_rsdp
    rw [hc]
    dsimp only
    rw [hr]
  · intro rp r s t hc hr hlen hfound
    unfold find_tcpa_table find_tcpa_by_rsdp at hfound ⊢
    rw [hc] at hfound ⊢
    dsimp only at hfound ⊢
    rw [hr] at hfound ⊢
    dsimp only at hfound ⊢
    rw [if_pos hlen] at hfound ⊢
    cases hscan : scanAux r (rsdtEntryCount r.length) 0 with
    | none => rw [hscan] at hfound; simp at hfound
    | some t2 =>
      rw [hscan] at hfound
      dsimp only at hfound ⊢
      have ht2 : t2 = t := by simpa using hfound
      subst ht2
      refine ⟨rfl, ?_⟩
      obtain ⟨k, hk, he, hv, hprev⟩ := scanAux_some_spec r _ 0 t2 hscan
      exact ⟨k, hk, by simpa using he, hv, fun j hj => by simpa using hprev j hj⟩
  · intro rp r s hc hr hlen hfound
    unfold find_tcpa_table find_tcpa_by_rsdp at hfound ⊢
    rw [hc] at hfound ⊢
    dsimp only at hfound ⊢
    rw [hr] at hfound ⊢
    dsimp only at hfound ⊢
    rw [if_pos hlen] at hfound ⊢
    cases hscan : scanAux r (rsdtEntryCount r.length) 0 with
    | some t2 => rw [hscan] at hfound; simp at hfound
    | none =>
      dsimp only
      refine ⟨rfl, ?_⟩
      intro j hj
      simpa using scanAux_none_spec r _ 0 hscan j hj

/-- A TCPA candidate that passes signature and checksum validation and
carries the 4096-byte log region at address 4096. -/
def goodCand : TcpaTable :=
  { signature := TCPA_SIGNATURE, length := 0, byteAt := fun _ => 0,
    log_area_minimum_length := 4096, log_area_start_address := 4096 }

/-- A candidate with a wrong signature. -/
def badCand : TcpaTable :=
  { signature := 0, length := 10, byteAt := fun _ => 0,
    log_area_minimum_length := 0, log_area_start_address := 0 }

/-- A root pointer whose table holds an invalid first entry and a valid
second entry. -/
def rsdpGood : RsdpT :=
  { rsdt := some { length := 44, entry := fun i => if i = 0 then badCand else goodCand } }

/-- A session that has already cached the valid table. -/
def cachedState : TpmState := { baseState with tcpa := some goodCand }

/-- Witness for C6 (amended): the cached table is returned without a
rescan, a missing root pointer disables the interface, and a fresh scan of
the 44-byte root table (two entries, first invalid) caches the valid
second entry. -/
theorem C6_amended_witness :
    find_tcpa_table (some rsdpGood) cachedState = (some goodCand, cachedState) ∧
    find_tcpa_table none baseState = (none, { baseState with if_shutdown := true }) ∧
    (find_tcpa_table (some rsdpGood) baseState).2
      = { baseState with tcpa := some goodCand } :=
  ⟨C6_amended.1 (some rsdpGood) cachedState goodCand rfl,
   C6_amended.2.1 baseState rfl,
   (C6_amended.2.2.2.1 rsdpGood
      { length := 44, entry := fun i => if i = 0 then badCand else goodCand }
      baseState goodCand rfl rfl (by decide) rfl).1⟩

/-! Claim C7: entry counting, last-entry tracking and cursor advance. -/

/-- Shape of a successful append when the u32 size computation does not
wrap: the append fit, the cursor advanced by header size plus body size,
the last-entry pointer records the entry offset, the region fields are
untouched, the counter ticked and exactly the header and body copies were
performed. -/
theorem tpm_log_event_success_facts (p : Pcpes) (ev : Nat → Nat) (s : TpmState) (next : Nat)
    (hne : s.log_area_next_entry = some next)
    (hbase : s.log_area_start_address ≤ next)
    (hnw : next - s.log_area_start_address + pcpesHeaderSize + p.eventdatasize < u32Mod)
    (hok : (tpm_log_event p ev s).1 = TCG_PC_OK) :
    next - s.log_area_start_address + pcpesHeaderSize + p.eventdatasize
        ≤ s.log_area_minimum_length ∧
    (tpm_log_event p ev s).2.log_area_next_entry
        = some (next + (pcpesHeaderSize + p.eventdatasize)) ∧
    (tpm_log_event p ev s).2.log_area_last_entry = some next ∧
    (tpm_log_event p ev s).2.log_area_start_address = s.log_area_start_address ∧
    (tpm_log_event p ev s).2.log_area_minimum_length = s.log_area_minimum_length ∧
    (tpm_log_event p ev s).2.entry_count = (s.entry_count + 1) % u32Mod ∧
    (tpm_log_event p ev s).2.writes
        = s.writes ++ [(next, pcpesHeaderSize), (next + pcpesHeaderSize, p.eventdatasize)] := by
  have hsz : (pcpesHeaderSize + p.eventdatasize) % u32Mod
      = pcpesHeaderSize + p.eventdatasize := Nat.mod_eq_of_lt (by omega)
  have hexpr : (next + (pcpesHeaderSize + p.eventdatasize) % u32Mod
      - s.log_area_start_address) % u32Mod
      = (next - s.log_area_start_address) + pcpesHeaderSize + p.eventdatasize := by
    rw [hsz]
    have h1 : next + (pcpesHeaderSize + p.eventdatasize) - s.log_area_start_address
        = (next - s.log_area_start_address) + pcpesHeaderSize + p.eventdatasize := by
      omega
    rw [h1]
    exact Nat.mod_eq_of_lt (by omega)
  have hfit : (next - s.log_area_start_address) + pcpesHeaderSize + p.eventdatasize
      ≤ s.log_area_minimum_length := by
    by_contra hgt
    push_neg at hgt
    rw [tpm_log_event_ov_eq p ev s next hne (by rw [hexpr]; omega)] at hok
    simp [TCG_PC_LOGOVERFLOW, TCG_PC_OK] at hok
  have hcond : ¬ ((next + (pcpesHeaderSize + p.eventdatasize) % u32Mod
      - s.log_area_start_address) % u32Mod > s.log_area_minimum_length) := by
    rw [hexpr]; omega
  rw [tpm_log_event_ok_eq p ev s next hne hcond]
  exact ⟨hfit, by rw [hsz], rfl, rfl, rfl, rfl, rfl⟩

/-- Invariants threaded through a sequence of successful appends whose
sizes cannot wrap the u32 bound arithmetic. -/
theorem appendAll_facts :
    ∀ (reqs : List (Pcpes × (Nat → Nat))) (s : TpmState) (next : Nat),
      s.log_area_next_entry = some next →
      s.log_area_start_address ≤ next →
      next - s.log_area_start_address ≤ s.log_area_minimum_length →
      s.entry_count < u32Mod →
      (∀ e ∈ reqs.map (fun r => r.1.eventdatasize),
        s.log_area_minimum_length + pcpesHeaderSize + e < u32Mod) →
      allAppendsSucceed reqs s = true →
      ∃ next2,
        (appendAll reqs s).log_area_next_entry = some next2 ∧
        (appendAll reqs s).log_area_start_address = s.log_area_start_address ∧
        (appendAll reqs s).log_area_minimum_length = s.log_area_minimum_length ∧
        next + pcpesHeaderSize * reqs.length ≤ next2 ∧
        next2 - s.log_area_start_address ≤ s.log_area_minimum_length ∧
        (appendAll reqs s).entry_count = (s.entry_count + reqs.length) % u32Mod := by
  intro reqs
  induction reqs with
  | nil =>
    intro s next hne hbase hcur hcount hbnd hsucc
    refine ⟨next, hne, rfl, rfl, by simp, hcur, ?_⟩
    simp only [appendAll, List.foldl_nil, List.length_nil, Nat.add_zero]
    exact (Nat.mod_eq_of_lt hcount).symm
  | cons hd tl ih =>
    intro s next hne hbase hcur hcount hbnd hsucc
    unfold allAppendsSucceed at hsucc
    rw [Bool.and_eq_true] at hsucc
    obtain ⟨hok0, hsucc1⟩ := hsucc
    have hok : (tpm_log_event hd.1 hd.2 s).1 = TCG_PC_OK := by
      exact beq_iff_eq.mp hok0
    have hbndhd : s.log_area_minimum_length + pcpesHeaderSize + hd.1.eventdatasize
        < u32Mod := hbnd hd.1.eventdatasize (by simp)
    have hstep := tpm_log_event_success_facts hd.1 hd.2 s next hne hbase
      (by omega) hok
    obtain ⟨hfit, hne1, _hlast1, hlasa1, hlaml1, hcount1, _hw1⟩ := hstep
    have happ : appendAll (hd :: tl) s = appendAll tl (tpm_log_event hd.1 hd.2 s).2 := by
      simp [appendAll]
    have hbase1 : (tpm_log_event hd.1 hd.2 s).2.log_area_start_address
        ≤ next + (pcpesHeaderSize + hd.1.eventdatasize) := by
      rw [hlasa1]; omega
    have hcur1 : next + (pcpesHeaderSize + hd.1.eventdatasize)
        - (tpm_log_event hd.1 hd.2 s).2.log_area_start_address
        ≤ (tpm_log_event hd.1 hd.2 s).2.log_area_minimum_length := by
      rw [hlasa1, hlaml1]; omega
    have hcount1lt : (tpm_log_event hd.1 hd.2 s).2.entry_count < u32Mod := by
      rw [hcount1]
      exact Nat.mod_lt _ (by simp [u32Mod])
    have hbnd1 : ∀ e ∈ tl.map (fun r => r.1.eventdatasize),
        (tpm_log_event hd.1 hd.2 s).2.log_area_minimum_length + pcpesHeaderSize + e
          < u32Mod := by
      intro e he
      rw [hlaml1]
      exact hbnd e (by simp at he ⊢; exact Or.inr he)
    obtain ⟨next2, h1, h2, h3, h4, h5, h6⟩ :=
      ih (tpm_log_event hd.1 hd.2 s).2 (next + (pcpesHeaderSize + hd.1.eventdatasize))
        hne1 hbase1 hcur1 hcount1lt hbnd1 hsucc1
    refine ⟨next2, by rw [happ]; exact h1, by rw [happ, h2, hlasa1],
      by rw [happ, h3, hlaml1], ?_, ?_, ?_⟩
    · simp only [List.length_cons]
      have : next + pcpesHeaderSize * tl.length + pcpesHeaderSize
          ≤ next + (pcpesHeaderSize + hd.1.eventdatasize) + pcpesHeaderSize * tl.length := by
        omega
      calc next + pcpesHeaderSize * (tl.length + 1)
          = next + pcpesHeaderSize * tl.length + pcpesHeaderSize := by ring
        _ ≤ next + (pcpesHeaderSize + hd.1.eventdatasize) + pcpesHeaderSize * tl.length := this
        _ ≤ next2 := h4
    · rw [← hlasa1, ← hlaml1]
      exact h5
    · rw [happ, h6, hcount1]
      simp only [List.length_cons, u32Mod]
      omega

/-- C7 counterexample: with the u32-wrapping body size 2^32 - 32 the
append succeeds but the cursor does not advance at all, contradicting the
claimed advance of headerSize + eventDataSize. -/
theorem C7_counterexample :
    (tpm_log_event { smallEvent with eventdatasize := u32Mod - pcpesHeaderSize }
        memSeven baseState).1 = TCG_PC_OK ∧
    (tpm_log_event { smallEvent with eventdatasize := u32Mod - pcpesHeaderSize }
        memSeven baseState).2.log_area_next_entry = some 4096 ∧
    4096 + (pcpesHeaderSize + (u32Mod - pcpesHeaderSize)) ≠ 4096 := by
  refine ⟨rfl, rfl, by decide⟩

/-- C7 (amended): provided no request size wraps the u32 arithmetic
(capacity + header size + body size below 2^32 for each request), the
entry count after N successful appends from a freshly reset region is
exactly N, and each successful append records its own offset in lastEntry,
advances the cursor by exactly headerSize + eventDataSize, and copies a
body of exactly eventDataSize bytes after its 32-byte header. -/
theorem C7_amended :
    (∀ (reqs : List (Pcpes × (Nat → Nat))) s next,
      s.log_area_next_entry = some next →
      s.log_area_start_address ≤ next →
      next - s.log_area_start_address ≤ s.log_area_minimum_length →
      s.entry_count = 0 →
      (∀ e ∈ reqs.map (fun r => r.1.eventdatasize),
        s.log_area_minimum_length + pcpesHeaderSize + e < u32Mod) →
      allAppendsSucceed reqs s = true →
      (appendAll reqs s).entry_count = reqs.length) ∧
    (∀ p ev s next,
      s.log_area_next_entry = some next →
      s.log_area_start_address ≤ next →
      next - s.log_area_start_address + pcpesHeaderSize + p.eventdatasize < u32Mod →
      (tpm_log_event p ev s).1 = TCG_PC_OK →
      (tpm_log_event p ev s).2.log_area_last_entry = some next ∧
      (tpm_log_event p ev s).2.log_area_next_entry
        = some (next + (pcpesHeaderSize + p.eventdatasize)) ∧
      (tpm_log_event p ev s).2.writes
        = s.writes ++ [(next, pcpesHeaderSize), (next + pcpesHeaderSize, p.eventdatasize)]) := by
  constructor
  · intro reqs s next hne hbase hcur hcount0 hbnd hsucc
    obtain ⟨next2, _h1, _h2, _h3, h4, h5, h6⟩ :=
      appendAll_facts reqs s next hne hbase hcur (by simp [hcount0, u32Mod]) hbnd hsucc
    rw [h6, hcount0]
    cases reqs with
    | nil => simp
    | cons hd tl =>
      have hlaml : s.log_area_minimum_length < u32Mod := by
        have := hbnd hd.1.eventdatasize (by simp)
        omega
      have hlen : (hd :: tl).length < u32Mod := by
        have h32 : pcpesHeaderSize * (hd :: tl).length ≤ s.log_area_minimum_length := by
          omega
        have hpos : (1 : Nat) ≤ pcpesHeaderSize := by simp [pcpesHeaderSize]
        have : (hd :: tl).length ≤ pcpesHeaderSize * (hd :: tl).length :=
          Nat.le_mul_of_pos_left _ (by omega)
        omega
      simpa using Nat.mod_eq_of_lt hlen
  · intro p ev s next hne hbase hnw hok
    obtain ⟨_hfit, h2, h3, _h4, _h5, _h6, h7⟩ :=
      tpm_log_event_success_facts p ev s next hne hbase hnw hok
    exact ⟨h3, h2, h7⟩

/-- Witness for C7 (amended): two small appends from the fresh base state
count to exactly 2, and a single append advances by 36 bytes recording the
two copies. -/
theorem C7_amended_witness :
    (appendAll [(smallEvent, memSeven), (smallEvent, memSeven)] baseState).entry_count
      = 2 ∧
    ((tpm_log_event smallEvent memSeven baseState).2.log_area_last_entry = some 4096 ∧
     (tpm_log_event smallEvent memSeven baseState).2.log_area_next_entry
       = some (4096 + (pcpesHeaderSize + 4)) ∧
     (tpm_log_event smallEvent memSeven baseState).2.writes
       = baseState.writes
         ++ [(4096, pcpesHeaderSize), (4096 + pcpesHeaderSize, 4)]) :=
  ⟨C7_amended.1 [(smallEvent, memSeven), (smallEvent, memSeven)] baseState 4096
     rfl (by decide) (by decide) rfl (by decide) (by decide),
   C7_amended.2 smallEvent memSeven baseState 4096 rfl (by decide) (by decide)
     (by decide)⟩

/-! Claim C8: reset of the log region. -/

/-- C8: when the locator yields a table with a nonzero log base, resetting
the ACPI log zero-fills the whole region, puts the cursor back at the
base, clears the last-entry pointer and zeroes the entry count. -/
theorem C8_reset (rsdp : Option RsdpT) (s : TpmState) (t : TcpaTable)
    (hfind : (find_tcpa_table rsdp s).1 = some t)
    (hlasa : t.log_area_start_address ≠ 0) :
    (reset_acpi_log rsdp s).log_area_next_entry = some t.log_area_start_address ∧
    (reset_acpi_log rsdp s).log_area_last_entry = none ∧
    (reset_acpi_log rsdp s).entry_count = 0 ∧
    ∀ i, t.log_area_start_address ≤ i →
      i < t.log_area_start_address + t.log_area_minimum_length →
      (reset_acpi_log rsdp s).logmem i = 0 := by
  unfold reset_acpi_log
  simp only [hfind]
  refine ⟨?_, ?_, ?_, ?_⟩
  · simp [hlasa]
  · simp [hlasa]
  · simp [hlasa]
  · intro i hi1 hi2
    simp [hlasa, memsetZero, writeRegion, hi1, hi2]

/-- Witness for C8 at the two-entry root table whose valid descriptor
carries the region [4096, 8192). -/
theorem C8_reset_witness :
    (reset_acpi_log (some rsdpGood) baseState).log_area_next_entry = some 4096 ∧
    (reset_acpi_log (some rsdpGood) baseState).log_area_last_entry = none ∧
    (reset_acpi_log (some rsdpGood) baseState).entry_count = 0 ∧
    (reset_acpi_log (some rsdpGood) baseState).logmem 5000 = 0 := by
  obtain ⟨h1, h2, h3, h4⟩ := C8_reset (some rsdpGood) baseState goodCand rfl (by decide)
  exact ⟨h1, h2, h3, h4 5000 (by decide) (by decide)⟩

/-! Claim C9: the log-only path ignores the TPM availability flags. -/

/-- tpm_log_event never touches the send counter or the availability
flags. -/
theorem tpm_log_event_frame (p : Pcpes) (ev : Nat → Nat) (s : TpmState) :
    (tpm_log_event p ev s).2.sends = s.sends ∧
    (tpm_log_event p ev s).2.tpm_probed = s.tpm_probed ∧
    (tpm_log_event p ev s).2.tpm_found = s.tpm_found ∧
    (tpm_log_event p ev s).2.tpm_working = s.tpm_working ∧
    (tpm_log_event p ev s).2.driver_valid = s.driver_valid := by
  unfold tpm_log_event
  cases hne : s.log_area_next_entry
  · exact ⟨rfl, rfl, rfl, rfl, rfl⟩
  · dsimp only
    split
    · exact ⟨rfl, rfl, rfl, rfl, rfl⟩
    · exact ⟨rfl, rfl, rfl, rfl, rfl⟩

/-- tpm_log_event never reads the availability flags: running it on a
state with those flags replaced gives the same result with the same flags
replaced. -/
theorem tpm_log_event_flags (p : Pcpes) (ev : Nat → Nat) (s : TpmState)
    (b1 b2 b3 : Bool) :
    tpm_log_event p ev { s with tpm_probed := b1, tpm_found := b2, tpm_working := b3 }
      = ((tpm_log_event p ev s).1,
         { (tpm_log_event p ev s).2 with
             tpm_probed := b1, tpm_found := b2, tpm_working := b3 }) := by
  cases s with
  | mk pr fo wo sd dv tc laml lasa ec ne le lm wr sn =>
    unfold tpm_log_event
    cases ne with
    | none => rfl
    | some nx =>
      dsimp only
      by_cases hc : (nx + (pcpesHeaderSize + p.eventdatasize) % u32Mod - lasa) % u32Mod
          > laml
      · simp only [if_pos hc]
      · simp only [if_neg hc]

/-- hash_log_event_int never reads the availability flags. -/
theorem hash_log_event_int_flags (sha1fn : List Nat → List Nat) (h : Hlei)
    (s : TpmState) (b1 b2 b3 : Bool) :
    hash_log_event_int sha1fn h
        { s with tpm_probed := b1, tpm_found := b2, tpm_working := b3 }
      = ((hash_log_event_int sha1fn h s).1,
         (hash_log_event_int sha1fn h s).2.1,
         { (hash_log_event_int sha1fn h s).2.2 with
             tpm_probed := b1, tpm_found := b2, tpm_working := b3 }) := by
  unfold hash_log_event_int is_preboot_if_shutdown
  dsimp only
  by_cases hsd : s.if_shutdown = true
  · simp only [if_pos hsd]
  · simp only [if_neg hsd]
    by_cases hlen : h.ipblength ≠ hleiSize
    · simp only [if_pos hlen]
    · simp only [if_neg hlen]
      by_cases hval : h.pcpes.pcrindex ≥ 24 ∨ h.pcpes.pcrindex ≠ h.pcrindex
          ∨ h.pcpes.eventtype ≠ h.logeventtype
          ∨ h.logdatalen ≠ (pcpesHeaderSize + h.pcpes.eventdatasize) % u32Mod
      · simp only [if_pos hval]
      · simp only [if_neg hval]
        rw [tpm_log_event_flags (tpm_fill_hash sha1fn h.pcpes h.hashdata) h.event s
          b1 b2 b3]
        dsimp only
        by_cases hrc : (tpm_log_event (tpm_fill_hash sha1fn h.pcpes h.hashdata)
            h.event s).1 ≠ TCG_PC_OK
        · simp only [if_pos hrc]
        · simp only [if_neg hrc]

/-- C9: hash_log_event_int performs no transmission and neither reads nor
writes the probe, found, working or driver flags: the flags and the send
counter pass through untouched, the result is the same for any values of
the three availability flags, and on a validation-passing input with room
in an established region it appends and returns success even when the
working flag is false (after markFailed). -/
theorem C9_log_only_frame :
    (∀ (sha1fn : List Nat → List Nat) h s,
      (hash_log_event_int sha1fn h s).2.2.sends = s.sends ∧
      (hash_log_event_int sha1fn h s).2.2.tpm_probed = s.tpm_probed ∧
      (hash_log_event_int sha1fn h s).2.2.tpm_found = s.tpm_found ∧
      (hash_log_event_int sha1fn h s).2.2.tpm_working = s.tpm_working ∧
      (hash_log_event_int sha1fn h s).2.2.driver_valid = s.driver_valid) ∧
    (∀ (sha1fn : List Nat → List Nat) h s (b1 b2 b3 : Bool),
      hash_log_event_int sha1fn h
          { s with tpm_probed := b1, tpm_found := b2, tpm_working := b3 }
        = ((hash_log_event_int sha1fn h s).1,
           (hash_log_event_int sha1fn h s).2.1,
           { (hash_log_event_int sha1fn h s).2.2 with
               tpm_probed := b1, tpm_found := b2, tpm_working := b3 })) ∧
    (∀ (sha1fn : List Nat → List Nat) h s next,
      s.if_shutdown = false → h.ipblength = hleiSize →
      ¬ (h.pcpes.pcrindex ≥ 24 ∨ h.pcpes.pcrindex ≠ h.pcrindex
          ∨ h.pcpes.eventtype ≠ h.logeventtype
          ∨ h.logdatalen ≠ (pcpesHeaderSize + h.pcpes.eventdatasize) % u32Mod) →
      s.log_area_next_entry = some next →
      s.log_area_start_address ≤ next →
      next - s.log_area_start_address + pcpesHeaderSize + h.pcpes.eventdatasize
          ≤ s.log_area_minimum_length →
      next - s.log_area_start_address + pcpesHeaderSize + h.pcpes.eventdatasize
          < u32Mod →
      s.tpm_working = false →
      (hash_log_event_int sha1fn h s).1 = TCG_PC_OK ∧
      (hash_log_event_int sha1fn h s).2.2.entry_count
          = (s.entry_count + 1) % u32Mod ∧
      (hash_log_event_int sha1fn h s).2.2.writes
          = s.writes
            ++ [(next, pcpesHeaderSize), (next + pcpesHeaderSize, h.pcpes.eventdatasize)]) := by
  refine ⟨?_, ?_, ?_⟩
  · intro sha1fn h s
    unfold hash_log_event_int is_preboot_if_shutdown
    dsimp only
    split
    · exact ⟨rfl, rfl, rfl, rfl, rfl⟩
    split
    · exact ⟨rfl, rfl, rfl, rfl, rfl⟩
    split
    · exact ⟨rfl, rfl, rfl, rfl, rfl⟩
    split
    · exact tpm_log_event_frame _ _ s
    · exact tpm_log_event_frame _ _ s
  · intro sha1fn h s b1 b2 b3
    exact hash_log_event_int_flags sha1fn h s b1 b2 b3
  · intro sha1fn h s next hsd hlen hval hne hbase hfit hnw _hw
    have hsz : (pcpesHeaderSize + h.pcpes.eventdatasize) % u32Mod
        = pcpesHeaderSize + h.pcpes.eventdatasize := Nat.mod_eq_of_lt (by omega)
    have hcond : ¬ ((next
        + (pcpesHeaderSize
            + (tpm_fill_hash sha1fn h.pcpes h.hashdata).eventdatasize) % u32Mod
        - s.log_area_start_address) % u32Mod > s.log_area_minimum_length) := by
      rw [tpm_fill_hash_eventdatasize, hsz]
      have h1 : next + (pcpesHeaderSize + h.pcpes.eventdatasize)
          - s.log_area_start_address
          = next - s.log_area_start_address + pcpesHeaderSize
            + h.pcpes.eventdatasize := by
        omega
      rw [h1, Nat.mod_eq_of_lt (by omega)]
      omega
    have hred := tpm_log_event_ok_eq (tpm_fill_hash sha1fn h.pcpes h.hashdata)
      h.event s next hne hcond
    simp [hash_log_event_int, is_preboot_if_shutdown, hsd, hlen, hval, hred,
      tpm_fill_hash_eventdatasize, TCG_PC_OK]

/-- Witness for C9 at the failed session (working flag false): parts one
and two at the base state, part three appending successfully after
markFailed. -/
theorem C9_log_only_frame_witness :
    ((hash_log_event_int shaStub validHlei baseState).2.2.sends = baseState.sends ∧
     (hash_log_event_int shaStub validHlei baseState).2.2.tpm_probed
       = baseState.tpm_probed ∧
     (hash_log_event_int shaStub validHlei baseState).2.2.tpm_found
       = baseState.tpm_found ∧
     (hash_log_event_int shaStub validHlei baseState).2.2.tpm_working
       = baseState.tpm_working ∧
     (hash_log_event_int shaStub validHlei baseState).2.2.driver_valid
       = baseState.driver_valid) ∧
    ((hash_log_event_int shaStub validHlei failedState).1 = TCG_PC_OK ∧
     (hash_log_event_int shaStub validHlei failedState).2.2.entry_count
       = (failedState.entry_count + 1) % u32Mod ∧
     (hash_log_event_int shaStub validHlei failedState).2.2.writes
       = failedState.writes ++ [(4096, pcpesHeaderSize), (4096 + pcpesHeaderSize, 4)]) :=
  ⟨C9_log_only_frame.1 shaStub validHlei baseState,
   C9_log_only_frame.2.2 shaStub validHlei failedState 4096 rfl rfl (by decide)
     rfl (by decide) (by decide) (by decide) rfl⟩

/-! Claim C10: the reported event number is the post-append entry count. -/

/-- C10: whenever hash_log_event_int returns success its output block
carries exactly the entry count of the state it returns, and whenever
compact_hash_log_extend_event_int returns success the value stored to the
caller register is exactly the entry count of the state it returns; both
counts are read immediately after the append. -/
theorem C10_eventnumber :
    (∀ (sha1fn : List Nat → List Nat) h s,
      (hash_log_event_int sha1fn h s).1 = TCG_PC_OK →
      (hash_log_event_int sha1fn h s).2.1.eventnumber
        = some (hash_log_event_int sha1fn h s).2.2.entry_count) ∧
    (∀ (sha1fn : List Nat → List Nat) env buffer info len pcr s,
      (compact_hash_log_extend_event_int sha1fn env buffer info len pcr s).1
          = TCG_PC_OK →
      (compact_hash_log_extend_event_int sha1fn env buffer info len pcr s).2.1
        = some (compact_hash_log_extend_event_int sha1fn env buffer info len pcr
            s).2.2.entry_count) := by
  constructor
  · intro sha1fn h s
    unfold hash_log_event_int is_preboot_if_shutdown
    dsimp only
    split
    · intro hrc
      simp [TCG_INTERFACE_SHUTDOWN, TCG_PC_OK] at hrc
    split
    · intro hrc
      simp [TCG_INVALID_INPUT_PARA, TCG_PC_OK] at hrc
    split
    · intro hrc
      simp [TCG_INVALID_INPUT_PARA, TCG_PC_OK] at hrc
    split
    · intro hrc
      simp_all
    · intro _
      rfl
  · intro sha1fn env buffer info len pcr s
    unfold compact_hash_log_extend_event_int is_preboot_if_shutdown
    dsimp only
    split
    · intro hrc
      simp [TCG_INTERFACE_SHUTDOWN, TCG_PC_OK] at hrc
    · split
      · intro _
        rfl
      · intro hrc
        simp_all

/-- Witness for C10 at two concrete successful calls. -/
theorem C10_eventnumber_witness :
    (hash_log_event_int shaStub validHlei baseState).2.1.eventnumber
      = some (hash_log_event_int shaStub validHlei baseState).2.2.entry_count ∧
    (compact_hash_log_extend_event_int shaStub envAllOk none 7 0 1 baseState).2.1
      = some (compact_hash_log_extend_event_int shaStub envAllOk none 7 0 1
          baseState).2.2.entry_count :=
  ⟨C10_eventnumber.1 shaStub validHlei baseState rfl,
   C10_eventnumber.2 shaStub envAllOk none 7 0 1 baseState rfl⟩

end Tcgbios
